import Mathlib

/-!
Shallow embedding of the synchronized multi-core sampling engine of
`src/Sensors/SMCProcessor/SMCProcessor.cpp` (VirtualSMC CPU sensor plugin):
the per-unit collection routine `updateCounters`, the energy/power
accumulator inside `timerCallback`, the drift-aware re-arming logic, the
`quickReschedule` fast path and the capability-detection part of
`setupKeys`.

Machine integers are modelled as `Nat`; the `double` arithmetic of the
power computation is modelled exactly over `ℚ` (every operand of the
power expression is an integer or an integer reciprocal, so no float
subtleties affect the claims settled here).  Hardware register reads are
an oracle `Nat → Nat → Nat` (execution unit, register address ↦ 64-bit
raw value); the fallible `readMsr` wrapper is `Nat → Nat → Option Nat`.
-/

namespace SMCProc

/-- Modelled from the spec: fixed maximum of execution units
(`CPUInfo::MaxCpus`, declared in a header that is not part of the
sources; the spec only requires that every execution-unit index is
below a fixed maximum). -/
def MaxCpus : Nat := 64

/-- Constant `UINT64_MAX` used by the wraparound correction. -/
def UINT64MAX : Nat := 2 ^ 64 - 1

/-- Register addresses used by the collection routine (Intel SDM values;
only distinctness matters for the model). -/
def MSR_IA32_THERM_STATUS : Nat := 0x19C

def MSR_IA32_PACKAGE_THERM_STATUS : Nat := 0x1B1

def MSR_PERF_STATUS : Nat := 0x198

def MSR_PKG_ENERGY_STATUS : Nat := 0x611

def MSR_PP0_ENERGY_STATUS : Nat := 0x639

def MSR_PP1_ENERGY_STATUS : Nat := 0x641

def MSR_DRAM_ENERGY_STATUS : Nat := 0x619

def MSR_RAPL_POWER_UNIT : Nat := 0x606

/-- Function `getBitField (v, hi, lo)`: bits `lo..hi` of `v`. -/
def getBitField (v hi lo : Nat) : Nat := (v >>> lo) % 2 ^ (hi - lo + 1)

/-- Function `getBit n`, the value `1 <<< n`. -/
def getBit (n : Nat) : Nat := 2 ^ n

/-- Modelled from the spec: the capability bitmask over
{core-temperature, package-temperature, voltage, energy-cores,
energy-uncore, energy-dram, energy-total}; the enum with the bit values
lives in a header that is not part of the sources, so the mask is
represented as one boolean per metric. -/
structure EventFlags where
  thermalCore : Bool
  thermalPackage : Bool
  voltage : Bool
  powerCores : Bool
  powerUncore : Bool
  powerDram : Bool
  powerTotal : Bool
deriving DecidableEq

/-- The all-clear capability mask (startup value). -/
def noFlags : EventFlags :=
  ⟨false, false, false, false, false, false, false⟩

/-- Test of `counters.eventFlags` as a nonzero integer. -/
def flagsNonzero (f : EventFlags) : Bool :=
  f.thermalCore || f.thermalPackage || f.voltage ||
    f.powerCores || f.powerUncore || f.powerDram || f.powerTotal

/-- Mask `Counters::PowerAny`: at least one energy domain enabled. -/
def powerAny (f : EventFlags) : Bool :=
  f.powerCores || f.powerUncore || f.powerDram || f.powerTotal

/-- Number of energy domains (`Counters::EnergyTotal`). -/
def EnergyTotal : Nat := 4

/-- Map `Counters::energyFlags i`: the capability flag of energy domain
`i`, with the domain order of the spec: cores, uncore, dram, total. -/
def energyFlagSet (f : EventFlags) (i : Nat) : Bool :=
  if i = 0 then f.powerCores
  else if i = 1 then f.powerUncore
  else if i = 2 then f.powerDram
  else if i = 3 then f.powerTotal
  else false

/-- Map `Counters::energyMsrs i`: the raw counter register of domain `i`. -/
def energyMsrs (i : Nat) : Nat :=
  if i = 0 then MSR_PP0_ENERGY_STATUS
  else if i = 1 then MSR_PP1_ENERGY_STATUS
  else if i = 2 then MSR_DRAM_ENERGY_STATUS
  else MSR_PKG_ENERGY_STATUS

/-- Structure `CPUInfo::CpuTopology`, restricted to the fields the
sampler uses. -/
structure CpuTopology where
  packageCount : Nat
  physicalCount : Nat → Nat
  numberToPackage : Nat → Nat
  numberToLogical : Nat → Nat
  numberToPhysicalUnique : Nat → Nat

/-- Point update of a one-index field. -/
def upd1 {α : Type} (f : Nat → α) (p : Nat) (v : α) : Nat → α :=
  fun q => if q = p then v else f q

/-- Point update of a package × domain field. -/
def upd2 {α : Type} (f : Nat → Nat → α) (p i : Nat) (v : α) : Nat → Nat → α :=
  fun q j => if q = p then (if j = i then v else f q j) else f q j

/-- The mutable `Counters` Sample State. -/
structure Counters where
  thermalStatus : Nat → Nat
  thermalStatusPackage : Nat → Nat
  energyBefore : Nat → Nat → Nat
  energyAfter : Nat → Nat → Nat
  energyUnits : Nat → ℚ
  power : Nat → Nat → ℚ
  voltage : Nat → ℚ
  tjmax : Nat → Nat
  eventFlags : EventFlags

/-- The zeroed Sample State created at startup. -/
def initCounters : Counters where
  thermalStatus := fun _ => 0
  thermalStatusPackage := fun _ => 0
  energyBefore := fun _ _ => 0
  energyAfter := fun _ _ => 0
  energyUnits := fun _ => 0
  power := fun _ _ => 0
  voltage := fun _ => 0
  tjmax := fun _ => 0
  eventFlags := noFlags

/-- Per-core temperature read of `updateCounters` (lines 73-80): if the
core-thermal capability is set and the valid bit (bit 31) of
`MSR_IA32_THERM_STATUS` is set, store bits 16..22 of the low 32 bits at
the unique physical-core index of the unit. -/
def coreTempStep (topo : CpuTopology) (hw : Nat → Nat → Nat) (cpu : Nat)
    (c : Counters) : Counters :=
  if c.eventFlags.thermalCore then
    let msr := hw cpu MSR_IA32_THERM_STATUS
    if msr.testBit 31 then
      { c with
        thermalStatus :=
          upd1 c.thermalStatus (topo.numberToPhysicalUnique cpu)
            (getBitField (msr % 2 ^ 32) 22 16) }
    else c
  else c

/-- Energy-counter body of the domain loop of `updateCounters`
(lines 91-98): for an enabled domain read the raw counter into
`energyAfter` and, if `energyBefore` still holds the zero sentinel, seed
it with the same value. -/
def energyStep (topo : CpuTopology) (hw : Nat → Nat → Nat) (cpu : Nat)
    (c : Counters) (i : Nat) : Counters :=
  if energyFlagSet c.eventFlags i then
    let package := topo.numberToPackage cpu
    let msr := hw cpu (energyMsrs i)
    let c1 := { c with energyAfter := upd2 c.energyAfter package i msr }
    if c1.energyBefore package i = 0 then
      { c1 with energyBefore := upd2 c1.energyBefore package i msr }
    else c1
  else c

/-- Package-temperature read of `updateCounters` (lines 83-88): if the
package-thermal capability is set and the valid bit of
`MSR_IA32_PACKAGE_THERM_STATUS` is set, store bits 16..22 of its low 32
bits at the package index of the unit. -/
def pkgThermalStep (topo : CpuTopology) (hw : Nat → Nat → Nat) (cpu : Nat)
    (c : Counters) : Counters :=
  if c.eventFlags.thermalPackage &&
      (hw cpu MSR_IA32_PACKAGE_THERM_STATUS).testBit 31 then
    { c with
      thermalStatusPackage :=
        upd1 c.thermalStatusPackage (topo.numberToPackage cpu)
          (getBitField ((hw cpu MSR_IA32_PACKAGE_THERM_STATUS) % 2 ^ 32) 22 16) }
  else c

/-- The energy-domain loop of `updateCounters` (lines 90-98). -/
def energyLoop (topo : CpuTopology) (hw : Nat → Nat → Nat) (cpu : Nat)
    (c : Counters) : Counters :=
  (List.range EnergyTotal).foldl (energyStep topo hw cpu) c

/-- Voltage read of `updateCounters` (lines 100-104): bits 32..47 of
`MSR_PERF_STATUS` divided by `2^13`. -/
def voltageStep (topo : CpuTopology) (hw : Nat → Nat → Nat) (cpu : Nat)
    (c : Counters) : Counters :=
  if c.eventFlags.voltage then
    { c with
      voltage :=
        upd1 c.voltage (topo.numberToPackage cpu)
          ((getBitField (hw cpu MSR_PERF_STATUS) 47 32 : ℚ) / (getBit 13 : ℚ)) }
  else c

/-- Package-level block of `updateCounters` (lines 82-105), executed only
by the unit with logical index 0: package temperature, the energy-domain
loop, and the voltage read, in source order. -/
def packageWork (topo : CpuTopology) (hw : Nat → Nat → Nat) (cpu : Nat)
    (c : Counters) : Counters :=
  voltageStep topo hw cpu (energyLoop topo hw cpu (pkgThermalStep topo hw cpu c))

/-- Routine `SMCProcessor::updateCounters` (lines 58-106): the per-unit collection
routine run on every execution unit by the rendezvous. -/
def updateCounters (topo : CpuTopology) (hw : Nat → Nat → Nat) (cpu : Nat)
    (c : Counters) : Counters :=
  if cpu < MaxCpus then
    if topo.numberToLogical cpu < topo.physicalCount (topo.numberToPackage cpu) then
      let c1 := coreTempStep topo hw cpu c
      if topo.numberToLogical cpu = 0 then packageWork topo hw cpu c1 else c1
    else c
  else c

/-- One rendezvous: the collection routine is executed once on every
execution unit (sequentialized; only the logical-0 unit of a package
writes package state, so the order is irrelevant). -/
def rendezvousRound (topo : CpuTopology) (hw : Nat → Nat → Nat)
    (cpus : List Nat) (c : Counters) : Counters :=
  cpus.foldl (fun cc cpu => updateCounters topo hw cpu cc) c

/-- The raw counter delta of `timerCallback` (lines 127-130):
`after - before` when no wrap, else `UINT64_MAX - before + after`
(unsigned 64-bit arithmetic; the expression does not overflow). -/
def rawDelta (before after : Nat) : Nat :=
  if after < before then UINT64MAX - before + after else after - before

/-- The power expression of `timerCallback` (line 133):
`p / (energyDelta / 1000000000.0) * energyUnits`. -/
def powerValue (before after energyDelta : Nat) (units : ℚ) : ℚ :=
  (rawDelta before after : ℚ) / ((energyDelta : ℚ) / 1000000000) * units

/-- Inner body of the accumulator loop of `timerCallback` (lines 125-134)
for package `i` and domain `j`: compute the wraparound-corrected delta,
roll `energyBefore` forward to `energyAfter`, and store the power. -/
def powerStep (energyDelta : Nat) (i : Nat) (c : Counters) (j : Nat) : Counters :=
  let p := powerValue (c.energyBefore i j) (c.energyAfter i j) energyDelta
    (c.energyUnits i)
  let c1 := { c with energyBefore := upd2 c.energyBefore i j (c.energyAfter i j) }
  { c1 with power := upd2 c1.power i j p }

/-- Accumulator loop over one package (the `j` loop of lines 125-134). -/
def domainLoop (energyDelta : Nat) (i : Nat) (c : Counters) : Counters :=
  (List.range EnergyTotal).foldl (powerStep energyDelta i) c

/-- The energy/power recomputation of `timerCallback` (lines 122-136):
for every package and every domain, recompute power over `energyDelta`
and roll the window forward. -/
def recomputePower (packageCount : Nat) (energyDelta : Nat) (c : Counters) :
    Counters :=
  (List.range packageCount).foldl (fun cc i => domainLoop energyDelta i cc) c

/-- Scheduler-visible state of the engine. -/
structure SchedState where
  counters : Counters
  timerEventLastTime : Nat
  timerEnergyLastTime : Nat
  timerEventScheduled : Bool

/-- Routine `SMCProcessor::timerCallback` (lines 108-147).  Parameters: the
topology, the register oracle, the list of online execution units, the
constants `MinDeltaForRescheduleNs`, `MaxDeltaForRescheduleNs` and
`TimerTimeoutMs` (declared in a header that is not part of the sources,
hence kept abstract), the current monotonic time in ns, and `armOk`, the
success of a `setTimeoutMS` call.  Returns the new state, whether the
rendezvous ran, and `some delayMs` when the timer was re-armed. -/
def timerCallback (topo : CpuTopology) (hw : Nat → Nat → Nat)
    (cpus : List Nat) (minDeltaNs maxDeltaNs timerTimeoutMs : Nat)
    (time : Nat) (armOk : Bool) (s : SchedState) :
    SchedState × Bool × Option Nat :=
  if flagsNonzero s.counters.eventFlags then
    let timerDelta := time - s.timerEventLastTime
    let energyDelta := time - s.timerEnergyLastTime
    let c1 := rendezvousRound topo hw cpus s.counters
    let recompute := decide (minDeltaNs ≤ energyDelta) && powerAny c1.eventFlags
    let c2 := if recompute then recomputePower topo.packageCount energyDelta c1
      else c1
    let newEnergyLast := if recompute then time else s.timerEnergyLastTime
    if maxDeltaNs < timerDelta then
      ({ counters := c2, timerEventLastTime := time,
         timerEnergyLastTime := newEnergyLast, timerEventScheduled := armOk },
       true, some timerTimeoutMs)
    else
      ({ counters := c2, timerEventLastTime := time,
         timerEnergyLastTime := newEnergyLast, timerEventScheduled := false },
       true, none)
  else (s, false, none)

/-- Routine `SMCProcessor::quickReschedule` (lines 390-395): if no round is
scheduled, arm the timer at `TimerTimeoutMs / 10` and record the arm
result; otherwise do nothing.  Returns the new state and `some delayMs`
when the timer was armed. -/
def quickReschedule (timerTimeoutMs : Nat) (armOk : Bool) (s : SchedState) :
    SchedState × Option Nat :=
  if s.timerEventScheduled then (s, none)
  else ({ s with timerEventScheduled := armOk }, some (timerTimeoutMs / 10))

/-- A sequence of timer firings: each event is (current time, arm
success). -/
def runRounds (topo : CpuTopology) (hw : Nat → Nat → Nat) (cpus : List Nat)
    (minDeltaNs maxDeltaNs timerTimeoutMs : Nat)
    (evs : List (Nat × Bool)) (s : SchedState) : SchedState :=
  evs.foldl
    (fun st ev =>
      (timerCallback topo hw cpus minDeltaNs maxDeltaNs timerTimeoutMs
        ev.1 ev.2 st).1) s

/-- Test `CPUInfo::getCpuid(6, 0, &val) && (val & getBit(bit))` as a predicate
on the optional EAX value of cpuid leaf 6. -/
def testCpuidBit (cpuid6eax : Option Nat) (bit : Nat) : Bool :=
  match cpuid6eax with
  | some v => (v % 2 ^ 32).testBit bit
  | none => false

/-- Routine `SMCProcessor::readRapl` (lines 39-56): on the logical-0 unit of each
package, read `MSR_RAPL_POWER_UNIT`; if bits 8..12 are nonzero store
`1 / 2^energyUnits` as the package scale factor. -/
def readRapl (topo : CpuTopology) (readMsrO : Nat → Nat → Option Nat)
    (cpu : Nat) (c : Counters) : Counters :=
  if cpu < MaxCpus ∧ topo.numberToLogical cpu = 0 then
    let pkg := topo.numberToPackage cpu
    match readMsrO cpu MSR_RAPL_POWER_UNIT with
    | some msr =>
        let eunits := getBitField msr 12 8
        if 0 < eunits then
          { c with
            energyUnits := upd1 c.energyUnits pkg (1 / (getBit eunits : ℚ)) }
        else c
    | none => c
  else c

/-- Capability-detection portion of `SMCProcessor::setupKeys`
(lines 152-189); the remainder of the function registers SMC keys with
the external store and is outside the engine.  `gen` is the detected
processor generation; `minGen` is `CPUInfo::CpuGeneration::SandyBridge`,
the minimum generation for energy/voltage probing; `bootCpu` is the unit
`setupKeys` executes on. -/
def setupKeysFlags (gen minGen : Nat) (cpuid6eax : Option Nat)
    (topo : CpuTopology) (readMsrO : Nat → Nat → Option Nat)
    (cpus : List Nat) (bootCpu : Nat) (c : Counters) : Counters :=
  let cA :=
    if testCpuidBit cpuid6eax 0 then
      { c with eventFlags := { c.eventFlags with thermalCore := true } }
    else c
  let cB :=
    if testCpuidBit cpuid6eax 6 then
      { cA with eventFlags := { cA.eventFlags with thermalPackage := true } }
    else cA
  if minGen ≤ gen then
    let cC := cpus.foldl (fun cc cpu => readRapl topo readMsrO cpu cc) cB
    let cD :=
      if 0 < cC.energyUnits 0 then
        let c1 :=
          if (readMsrO bootCpu MSR_PKG_ENERGY_STATUS).isSome then
            { cC with eventFlags := { cC.eventFlags with powerTotal := true } }
          else cC
        let c2 :=
          if (readMsrO bootCpu MSR_PP0_ENERGY_STATUS).isSome then
            { c1 with eventFlags := { c1.eventFlags with powerCores := true } }
          else c1
        let c3 :=
          if (readMsrO bootCpu MSR_PP1_ENERGY_STATUS).isSome then
            { c2 with eventFlags := { c2.eventFlags with powerUncore := true } }
          else c2
        if (readMsrO bootCpu MSR_DRAM_ENERGY_STATUS).isSome then
          { c3 with eventFlags := { c3.eventFlags with powerDram := true } }
        else c3
      else cC
    if (readMsrO bootCpu MSR_PERF_STATUS).isSome then
      { cD with eventFlags := { cD.eventFlags with voltage := true } }
    else cD
  else cB

/-- Whether `updateCounters` on `cpu` reaches the package-level block:
all three guards of lines 62-82. -/
def reachesPackageWork (topo : CpuTopology) (cpu : Nat) : Bool :=
  decide (cpu < MaxCpus) &&
    decide (topo.numberToLogical cpu <
      topo.physicalCount (topo.numberToPackage cpu)) &&
    decide (topo.numberToLogical cpu = 0)

/-- The package-indexed portion of the Sample State (package temperature,
energy counters, voltage). -/
def packageView (c : Counters) :
    (Nat → Nat) × (Nat → Nat → Nat) × (Nat → Nat → Nat) × (Nat → ℚ) :=
  (c.thermalStatusPackage, c.energyBefore, c.energyAfter, c.voltage)

/-- The claim C4 example topology: 2 packages × 4 physical cores × 2
hyper-threads = 16 execution units; `numberToLogical` is the index of
the unit within its package, so exactly one unit per package carries
index 0. -/
def exampleTopo : CpuTopology where
  packageCount := 2
  physicalCount := fun _ => 4
  numberToPackage := fun cpu => if cpu < 16 then cpu / 8 else 0
  numberToLogical := fun cpu => if cpu < 16 then cpu % 8 else 8
  numberToPhysicalUnique := fun cpu => (cpu / 8) * 4 + cpu % 4

/-- The invariant of a disabled energy domain `j`: its capability flag is
cleared and its counters and power are at their zero startup state in
every package. -/
def domainClear (j : Nat) (c : Counters) : Prop :=
  energyFlagSet c.eventFlags j = false ∧
  ∀ i, c.energyBefore i j = 0 ∧ c.energyAfter i j = 0 ∧ c.power i j = 0

/-- A single-package, single-core topology used for concrete instances. -/
def trivTopo : CpuTopology where
  packageCount := 1
  physicalCount := fun _ => 1
  numberToPackage := fun _ => 0
  numberToLogical := fun _ => 0
  numberToPhysicalUnique := fun _ => 0

/-- A concrete register oracle: every read returns 7. -/
def hw0 : Nat → Nat → Nat := fun _ _ => 7

/-- Capability mask with only the total energy domain enabled. -/
def totalOnlyFlags : EventFlags := { noFlags with powerTotal := true }

/-- A concrete startup scheduler state with only the total energy domain
enabled. -/
def s0 : SchedState where
  counters := { initCounters with eventFlags := totalOnlyFlags }
  timerEventLastTime := 0
  timerEnergyLastTime := 0
  timerEventScheduled := false

/-- A concrete scheduler state with an all-clear capability mask. -/
def sNone : SchedState where
  counters := initCounters
  timerEventLastTime := 0
  timerEnergyLastTime := 0
  timerEventScheduled := false

/-- Concrete counters realizing the wraparound example of the spec:
`energyBefore = UINT64_MAX - 10`, `energyAfter = 5`, `energyUnits = 1`. -/
def c1Counters : Counters :=
  { initCounters with
    energyBefore := fun _ _ => UINT64MAX - 10
    energyAfter := fun _ _ => 5
    energyUnits := fun _ => 1
    eventFlags := totalOnlyFlags }

/-- Concrete counters with unit scale factors and a nonzero reading. -/
def c8Counters : Counters :=
  { initCounters with
    energyUnits := fun _ => 1
    energyAfter := fun _ _ => 5 }

/-! ### Frame and effect lemmas for the collection routine -/

section Lemmas

variable (topo : CpuTopology) (hw : Nat → Nat → Nat) (cpu : Nat)

theorem range4 : List.range EnergyTotal = [0, 1, 2, 3] := rfl

theorem foldl_preserve {α β : Type} (P : β → Prop) (f : β → α → β)
    (h : ∀ b a, P b → P (f b a)) :
    ∀ (l : List α) (b : β), P b → P (l.foldl f b) := by
  intro l
  induction l with
  | nil => intro b hb; exact hb
  | cons x xs ih => intro b hb; exact ih _ (h b x hb)

theorem coreTempStep_energy (c : Counters) :
    (coreTempStep topo hw cpu c).energyBefore = c.energyBefore ∧
    (coreTempStep topo hw cpu c).energyAfter = c.energyAfter ∧
    (coreTempStep topo hw cpu c).eventFlags = c.eventFlags ∧
    (coreTempStep topo hw cpu c).power = c.power ∧
    (coreTempStep topo hw cpu c).energyUnits = c.energyUnits := by
  simp only [coreTempStep]
  split <;> try exact ⟨rfl, rfl, rfl, rfl, rfl⟩
  split <;> exact ⟨rfl, rfl, rfl, rfl, rfl⟩

theorem coreTempStep_packageView (c : Counters) :
    packageView (coreTempStep topo hw cpu c) = packageView c := by
  simp only [coreTempStep, packageView]
  split <;> try rfl
  split <;> rfl

theorem pkgThermalStep_energy (c : Counters) :
    (pkgThermalStep topo hw cpu c).energyBefore = c.energyBefore ∧
    (pkgThermalStep topo hw cpu c).energyAfter = c.energyAfter ∧
    (pkgThermalStep topo hw cpu c).eventFlags = c.eventFlags ∧
    (pkgThermalStep topo hw cpu c).power = c.power ∧
    (pkgThermalStep topo hw cpu c).energyUnits = c.energyUnits := by
  simp only [pkgThermalStep]
  split <;> exact ⟨rfl, rfl, rfl, rfl, rfl⟩

theorem voltageStep_energy (c : Counters) :
    (voltageStep topo hw cpu c).energyBefore = c.energyBefore ∧
    (voltageStep topo hw cpu c).energyAfter = c.energyAfter ∧
    (voltageStep topo hw cpu c).eventFlags = c.eventFlags ∧
    (voltageStep topo hw cpu c).power = c.power ∧
    (voltageStep topo hw cpu c).energyUnits = c.energyUnits := by
  simp only [voltageStep]
  split <;> exact ⟨rfl, rfl, rfl, rfl, rfl⟩

theorem energyStep_flags (c : Counters) (i : Nat) :
    (energyStep topo hw cpu c i).eventFlags = c.eventFlags := by
  simp only [energyStep]
  split <;> try rfl
  split <;> rfl

theorem energyStep_power (c : Counters) (i : Nat) :
    (energyStep topo hw cpu c i).power = c.power := by
  simp only [energyStep]
  split <;> try rfl
  split <;> rfl

theorem energyStep_units (c : Counters) (i : Nat) :
    (energyStep topo hw cpu c i).energyUnits = c.energyUnits := by
  simp only [energyStep]
  split <;> try rfl
  split <;> rfl

theorem energyStep_cell_ne (c : Counters) (i p j : Nat) (hne : j ≠ i) :
    (energyStep topo hw cpu c i).energyBefore p j = c.energyBefore p j ∧
    (energyStep topo hw cpu c i).energyAfter p j = c.energyAfter p j := by
  simp only [energyStep]
  split
  · split <;> constructor <;> simp [upd2, hne]
  · exact ⟨rfl, rfl⟩

theorem energyStep_self (c : Counters) (i : Nat)
    (hflag : energyFlagSet c.eventFlags i = true)
    (hb : c.energyBefore (topo.numberToPackage cpu) i = 0) :
    (energyStep topo hw cpu c i).energyBefore (topo.numberToPackage cpu) i =
      hw cpu (energyMsrs i) ∧
    (energyStep topo hw cpu c i).energyAfter (topo.numberToPackage cpu) i =
      hw cpu (energyMsrs i) := by
  simp [energyStep, hflag, hb, upd2]

theorem energyLoop_list_flags (l : List Nat) (c : Counters) :
    (l.foldl (energyStep topo hw cpu) c).eventFlags = c.eventFlags := by
  induction l generalizing c with
  | nil => rfl
  | cons x xs ih =>
      rw [List.foldl_cons, ih]
      exact energyStep_flags topo hw cpu c x

theorem energyLoop_list_power (l : List Nat) (c : Counters) :
    (l.foldl (energyStep topo hw cpu) c).power = c.power := by
  induction l generalizing c with
  | nil => rfl
  | cons x xs ih =>
      rw [List.foldl_cons, ih]
      exact energyStep_power topo hw cpu c x

theorem energyLoop_list_units (l : List Nat) (c : Counters) :
    (l.foldl (energyStep topo hw cpu) c).energyUnits = c.energyUnits := by
  induction l generalizing c with
  | nil => rfl
  | cons x xs ih =>
      rw [List.foldl_cons, ih]
      exact energyStep_units topo hw cpu c x

theorem energyLoop_list_cell (l : List Nat) (j : Nat) (hj : j ∉ l)
    (c : Counters) (p : Nat) :
    (l.foldl (energyStep topo hw cpu) c).energyBefore p j = c.energyBefore p j ∧
    (l.foldl (energyStep topo hw cpu) c).energyAfter p j = c.energyAfter p j := by
  induction l generalizing c with
  | nil => exact ⟨rfl, rfl⟩
  | cons x xs ih =>
      have hx : j ≠ x := fun h => hj (List.mem_cons.mpr (Or.inl h))
      have hxs : j ∉ xs := fun h => hj (List.mem_cons.mpr (Or.inr h))
      rw [List.foldl_cons]
      have h1 := energyStep_cell_ne topo hw cpu c x p j hx
      have h2 := ih hxs (energyStep topo hw cpu c x)
      exact ⟨h2.1.trans h1.1, h2.2.trans h1.2⟩

theorem energyLoop_list_seed (l1 l2 : List Nat) (i : Nat)
    (h1 : i ∉ l1) (h2 : i ∉ l2) (c : Counters)
    (hflag : energyFlagSet c.eventFlags i = true)
    (hb : c.energyBefore (topo.numberToPackage cpu) i = 0) :
    ((l1 ++ i :: l2).foldl (energyStep topo hw cpu) c).energyBefore
        (topo.numberToPackage cpu) i = hw cpu (energyMsrs i) ∧
    ((l1 ++ i :: l2).foldl (energyStep topo hw cpu) c).energyAfter
        (topo.numberToPackage cpu) i = hw cpu (energyMsrs i) := by
  rw [List.foldl_append, List.foldl_cons]
  have hfl := energyLoop_list_flags topo hw cpu l1 c
  have hcell := energyLoop_list_cell topo hw cpu l1 i h1 c (topo.numberToPackage cpu)
  have hself :=
    energyStep_self topo hw cpu (l1.foldl (energyStep topo hw cpu) c) i
      (by rw [hfl]; exact hflag) (hcell.1.trans hb)
  have hrest :=
    energyLoop_list_cell topo hw cpu l2 i h2
      (energyStep topo hw cpu (l1.foldl (energyStep topo hw cpu) c) i)
      (topo.numberToPackage cpu)
  exact ⟨hrest.1.trans hself.1, hrest.2.trans hself.2⟩

theorem packageWork_frame (c : Counters) :
    (packageWork topo hw cpu c).eventFlags = c.eventFlags ∧
    (packageWork topo hw cpu c).power = c.power ∧
    (packageWork topo hw cpu c).energyUnits = c.energyUnits := by
  unfold packageWork energyLoop
  have ht := pkgThermalStep_energy topo hw cpu c
  have hv := voltageStep_energy topo hw cpu
    ((List.range EnergyTotal).foldl (energyStep topo hw cpu) (pkgThermalStep topo hw cpu c))
  have hl1 := energyLoop_list_flags topo hw cpu (List.range EnergyTotal)
    (pkgThermalStep topo hw cpu c)
  have hl2 := energyLoop_list_power topo hw cpu (List.range EnergyTotal)
    (pkgThermalStep topo hw cpu c)
  have hl3 := energyLoop_list_units topo hw cpu (List.range EnergyTotal)
    (pkgThermalStep topo hw cpu c)
  refine ⟨?_, ?_, ?_⟩
  · rw [hv.2.2.1, hl1, ht.2.2.1]
  · rw [hv.2.2.2.1, hl2, ht.2.2.2.1]
  · rw [hv.2.2.2.2, hl3, ht.2.2.2.2]

theorem updateCounters_frame (c : Counters) :
    (updateCounters topo hw cpu c).eventFlags = c.eventFlags ∧
    (updateCounters topo hw cpu c).power = c.power ∧
    (updateCounters topo hw cpu c).energyUnits = c.energyUnits := by
  simp only [updateCounters]
  have hct := coreTempStep_energy topo hw cpu c
  have hpw := packageWork_frame topo hw cpu (coreTempStep topo hw cpu c)
  split
  · split
    · split
      · exact ⟨hpw.1.trans hct.2.2.1, hpw.2.1.trans hct.2.2.2.1,
          hpw.2.2.trans hct.2.2.2.2⟩
      · exact ⟨hct.2.2.1, hct.2.2.2.1, hct.2.2.2.2⟩
    · exact ⟨rfl, rfl, rfl⟩
  · exact ⟨rfl, rfl, rfl⟩

theorem rendezvousRound_flags (cpus : List Nat) (c : Counters) :
    (rendezvousRound topo hw cpus c).eventFlags = c.eventFlags := by
  unfold rendezvousRound
  induction cpus generalizing c with
  | nil => rfl
  | cons x xs ih =>
      rw [List.foldl_cons, ih]
      exact (updateCounters_frame topo hw x c).1

theorem powerValue_zero (d : Nat) (u : ℚ) : powerValue 0 0 d u = 0 := by
  simp [powerValue, rawDelta]

theorem powerStep_frame (d i : Nat) (c : Counters) (j : Nat) :
    (powerStep d i c j).energyAfter = c.energyAfter ∧
    (powerStep d i c j).eventFlags = c.eventFlags ∧
    (powerStep d i c j).energyUnits = c.energyUnits := ⟨rfl, rfl, rfl⟩

theorem powerStep_row_ne (d i : Nat) (c : Counters) (j p q : Nat) (h : p ≠ i) :
    (powerStep d i c j).energyBefore p q = c.energyBefore p q ∧
    (powerStep d i c j).power p q = c.power p q := by
  constructor <;> simp [powerStep, upd2, h]

theorem powerStep_col_ne (d i : Nat) (c : Counters) (j p q : Nat) (h : q ≠ j) :
    (powerStep d i c j).energyBefore p q = c.energyBefore p q ∧
    (powerStep d i c j).power p q = c.power p q := by
  constructor <;> simp [powerStep, upd2, h]

theorem powerStep_before_at (d i : Nat) (c : Counters) (j : Nat) :
    (powerStep d i c j).energyBefore i j = c.energyAfter i j := by
  simp [powerStep, upd2]

theorem powerStep_power_at (d i : Nat) (c : Counters) (j : Nat) :
    (powerStep d i c j).power i j =
      powerValue (c.energyBefore i j) (c.energyAfter i j) d (c.energyUnits i) := by
  simp [powerStep, upd2]

theorem domainLoop_frame (d i : Nat) (c : Counters) :
    (domainLoop d i c).energyAfter = c.energyAfter ∧
    (domainLoop d i c).eventFlags = c.eventFlags ∧
    (domainLoop d i c).energyUnits = c.energyUnits := ⟨rfl, rfl, rfl⟩

theorem domainLoop_row_ne (d i : Nat) (c : Counters) (p q : Nat) (h : p ≠ i) :
    (domainLoop d i c).energyBefore p q = c.energyBefore p q ∧
    (domainLoop d i c).power p q = c.power p q := by
  unfold domainLoop
  rw [range4]
  simp only [List.foldl_cons, List.foldl_nil]
  have s0 := powerStep_row_ne d i c 0 p q h
  have s1 := powerStep_row_ne d i (powerStep d i c 0) 1 p q h
  have s2 := powerStep_row_ne d i (powerStep d i (powerStep d i c 0) 1) 2 p q h
  have s3 := powerStep_row_ne d i
    (powerStep d i (powerStep d i (powerStep d i c 0) 1) 2) 3 p q h
  exact ⟨(s3.1.trans s2.1).trans (s1.1.trans s0.1),
    (s3.2.trans s2.2).trans (s1.2.trans s0.2)⟩

theorem domainLoop_before_at (d i : Nat) (c : Counters) (j : Nat) (hj : j < 4) :
    (domainLoop d i c).energyBefore i j = c.energyAfter i j := by
  unfold domainLoop
  rw [range4]
  simp only [List.foldl_cons, List.foldl_nil]
  interval_cases j <;>
    simp [powerStep, upd2]

theorem domainLoop_power_at (d i : Nat) (c : Counters) (j : Nat) (hj : j < 4) :
    (domainLoop d i c).power i j =
      powerValue (c.energyBefore i j) (c.energyAfter i j) d (c.energyUnits i) := by
  unfold domainLoop
  rw [range4]
  simp only [List.foldl_cons, List.foldl_nil]
  interval_cases j <;>
    simp [powerStep, upd2]

theorem recompute_succ (m d : Nat) (c : Counters) :
    recomputePower (m + 1) d c = domainLoop d m (recomputePower m d c) := by
  unfold recomputePower
  rw [List.range_succ, List.foldl_append]
  rfl

theorem recompute_frame (n d : Nat) (c : Counters) :
    (recomputePower n d c).energyAfter = c.energyAfter ∧
    (recomputePower n d c).eventFlags = c.eventFlags ∧
    (recomputePower n d c).energyUnits = c.energyUnits := by
  induction n with
  | zero => exact ⟨rfl, rfl, rfl⟩
  | succ m ih =>
      rw [recompute_succ]
      have h := domainLoop_frame d m (recomputePower m d c)
      exact ⟨h.1.trans ih.1, h.2.1.trans ih.2.1, h.2.2.trans ih.2.2⟩

theorem recompute_high_row (n d : Nat) (c : Counters) (p q : Nat) (h : n ≤ p) :
    (recomputePower n d c).energyBefore p q = c.energyBefore p q ∧
    (recomputePower n d c).power p q = c.power p q := by
  induction n with
  | zero => exact ⟨rfl, rfl⟩
  | succ m ih =>
      rw [recompute_succ]
      have hne : p ≠ m := by omega
      have hm : m ≤ p := by omega
      have hd := domainLoop_row_ne d m (recomputePower m d c) p q hne
      exact ⟨hd.1.trans (ih hm).1, hd.2.trans (ih hm).2⟩

theorem recompute_before_at (n d : Nat) (c : Counters) (i j : Nat)
    (hi : i < n) (hj : j < 4) :
    (recomputePower n d c).energyBefore i j = c.energyAfter i j := by
  induction n with
  | zero => omega
  | succ m ih =>
      rw [recompute_succ]
      by_cases him : i = m
      · subst him
        rw [domainLoop_before_at d i (recomputePower i d c) j hj]
        exact congrFun (congrFun (recompute_frame i d c).1 i) j
      · have hlt : i < m := by omega
        rw [(domainLoop_row_ne d m (recomputePower m d c) i j him).1]
        exact ih hlt

theorem recompute_power_at (n d : Nat) (c : Counters) (i j : Nat)
    (hi : i < n) (hj : j < 4) :
    (recomputePower n d c).power i j =
      powerValue (c.energyBefore i j) (c.energyAfter i j) d (c.energyUnits i) := by
  induction n with
  | zero => omega
  | succ m ih =>
      rw [recompute_succ]
      by_cases him : i = m
      · subst him
        rw [domainLoop_power_at d i (recomputePower i d c) j hj]
        rw [(recompute_high_row i d c i j (Nat.le_refl i)).1]
        rw [congrFun (congrFun (recompute_frame i d c).1 i) j]
        rw [congrFun (recompute_frame i d c).2.2 i]
      · have hlt : i < m := by omega
        rw [(domainLoop_row_ne d m (recomputePower m d c) i j him).2]
        exact ih hlt

theorem powerAny_flagsNonzero (f : EventFlags) (h : powerAny f = true) :
    flagsNonzero f = true := by
  simp only [powerAny, Bool.or_eq_true] at h
  simp only [flagsNonzero, Bool.or_eq_true]
  tauto

end Lemmas

section ClearLemmas

variable (topo : CpuTopology) (hw : Nat → Nat → Nat) (cpu : Nat)

theorem energyStep_clear (c : Counters) (i j : Nat) (h : domainClear j c) :
    domainClear j (energyStep topo hw cpu c i) := by
  refine ⟨by rw [energyStep_flags]; exact h.1, ?_⟩
  intro p
  by_cases hij : j = i
  · subst hij
    have hoff : energyFlagSet c.eventFlags j = false := h.1
    simp only [energyStep, hoff, Bool.false_eq_true, if_false]
    exact h.2 p
  · have hc := energyStep_cell_ne topo hw cpu c i p j hij
    have hp := energyStep_power topo hw cpu c i
    exact ⟨hc.1.trans (h.2 p).1, hc.2.trans (h.2 p).2.1,
      by rw [congrFun (congrFun hp p) j]; exact (h.2 p).2.2⟩

theorem counters_clear_of_frame (c c' : Counters) (j : Nat)
    (hb : c'.energyBefore = c.energyBefore) (ha : c'.energyAfter = c.energyAfter)
    (hf : c'.eventFlags = c.eventFlags) (hp : c'.power = c.power)
    (h : domainClear j c) : domainClear j c' := by
  refine ⟨by rw [hf]; exact h.1, ?_⟩
  intro p
  rw [congrFun (congrFun hb p) j, congrFun (congrFun ha p) j,
    congrFun (congrFun hp p) j]
  exact h.2 p

theorem updateCounters_clear (c : Counters) (j : Nat) (h : domainClear j c) :
    domainClear j (updateCounters topo hw cpu c) := by
  simp only [updateCounters]
  split
  · split
    · have hct := coreTempStep_energy topo hw cpu c
      have hclear1 : domainClear j (coreTempStep topo hw cpu c) :=
        counters_clear_of_frame _ _ j hct.1 hct.2.1 hct.2.2.1 hct.2.2.2.1 h
      split
      · unfold packageWork
        have ht := pkgThermalStep_energy topo hw cpu (coreTempStep topo hw cpu c)
        have hclear2 : domainClear j (pkgThermalStep topo hw cpu (coreTempStep topo hw cpu c)) :=
          counters_clear_of_frame _ _ j ht.1 ht.2.1 ht.2.2.1 ht.2.2.2.1 hclear1
        have hclear3 : domainClear j
            (energyLoop topo hw cpu (pkgThermalStep topo hw cpu (coreTempStep topo hw cpu c))) := by
          unfold energyLoop
          exact foldl_preserve (domainClear j) (energyStep topo hw cpu)
            (fun b a hb => energyStep_clear topo hw cpu b a j hb)
            (List.range EnergyTotal) _ hclear2
        have hv := voltageStep_energy topo hw cpu
          (energyLoop topo hw cpu (pkgThermalStep topo hw cpu (coreTempStep topo hw cpu c)))
        exact counters_clear_of_frame _ _ j hv.1 hv.2.1 hv.2.2.1 hv.2.2.2.1 hclear3
      · exact hclear1
    · exact h
  · exact h

theorem powerStep_clear (d i : Nat) (c : Counters) (q j : Nat)
    (h : domainClear j c) : domainClear j (powerStep d i c q) := by
  refine ⟨h.1, ?_⟩
  intro p
  refine ⟨?_, (h.2 p).2.1, ?_⟩
  · by_cases hq : j = q
    · subst hq
      by_cases hp : p = i
      · subst hp
        rw [powerStep_before_at]
        exact (h.2 p).2.1
      · rw [(powerStep_row_ne d i c j p j hp).1]
        exact (h.2 p).1
    · rw [(powerStep_col_ne d i c q p j hq).1]
      exact (h.2 p).1
  · by_cases hq : j = q
    · subst hq
      by_cases hp : p = i
      · subst hp
        rw [powerStep_power_at, (h.2 p).1, (h.2 p).2.1]
        exact powerValue_zero d (c.energyUnits p)
      · rw [(powerStep_row_ne d i c j p j hp).2]
        exact (h.2 p).2.2
    · rw [(powerStep_col_ne d i c q p j hq).2]
      exact (h.2 p).2.2

theorem recompute_clear (n d : Nat) (c : Counters) (j : Nat)
    (h : domainClear j c) : domainClear j (recomputePower n d c) := by
  unfold recomputePower
  refine foldl_preserve (domainClear j) _ ?_ (List.range n) c h
  intro b i hb
  unfold domainLoop
  exact foldl_preserve (domainClear j) _
    (fun b2 q hb2 => powerStep_clear d i b2 q j hb2) (List.range EnergyTotal) b hb

theorem timerCallback_clear (cpus : List Nat) (minD maxD tms time : Nat)
    (armOk : Bool) (s : SchedState) (j : Nat)
    (h : domainClear j s.counters) :
    domainClear j
      ((timerCallback topo hw cpus minD maxD tms time armOk s).1).counters := by
  have hrz : domainClear j (rendezvousRound topo hw cpus s.counters) := by
    unfold rendezvousRound
    exact foldl_preserve (domainClear j) _
      (fun b a hb => updateCounters_clear topo hw a b j hb) cpus s.counters h
  simp only [timerCallback]
  split
  · split <;>
    · simp only []
      split
      · exact recompute_clear _ _ _ j hrz
      · exact hrz
  · exact h

theorem runRounds_clear (cpus : List Nat) (minD maxD tms : Nat)
    (evs : List (Nat × Bool)) (s : SchedState) (j : Nat)
    (h : domainClear j s.counters) :
    domainClear j (runRounds topo hw cpus minD maxD tms evs s).counters := by
  unfold runRounds
  exact foldl_preserve (fun st => domainClear j st.counters) _
    (fun b a hb => timerCallback_clear topo hw cpus minD maxD tms a.1 a.2 b j hb)
    evs s h

end ClearLemmas

section CallbackLemmas

variable (topo : CpuTopology) (hw : Nat → Nat → Nat)

theorem timerCallback_pos (cpus : List Nat) (minD maxD tms time : Nat)
    (armOk : Bool) (s : SchedState)
    (h : flagsNonzero s.counters.eventFlags = true) :
    timerCallback topo hw cpus minD maxD tms time armOk s =
      (let c1 := rendezvousRound topo hw cpus s.counters
       let rec0 := decide (minD ≤ time - s.timerEnergyLastTime) &&
         powerAny c1.eventFlags
       let c2 := if rec0 then
           recomputePower topo.packageCount (time - s.timerEnergyLastTime) c1
         else c1
       let nel := if rec0 then time else s.timerEnergyLastTime
       if maxD < time - s.timerEventLastTime then
         ({ counters := c2, timerEventLastTime := time,
            timerEnergyLastTime := nel, timerEventScheduled := armOk },
          true, some tms)
       else
         ({ counters := c2, timerEventLastTime := time,
            timerEnergyLastTime := nel, timerEventScheduled := false },
          true, none)) := by
  unfold timerCallback
  rw [if_pos h]

theorem powerValue_self (v d : Nat) (u : ℚ) : powerValue v v d u = 0 := by
  simp [powerValue, rawDelta]

theorem energyLoop_seed_lt (cpu : Nat) (c : Counters) (j : Nat) (hj : j < 4)
    (hflag : energyFlagSet c.eventFlags j = true)
    (hb : c.energyBefore (topo.numberToPackage cpu) j = 0) :
    (energyLoop topo hw cpu c).energyBefore (topo.numberToPackage cpu) j =
      hw cpu (energyMsrs j) ∧
    (energyLoop topo hw cpu c).energyAfter (topo.numberToPackage cpu) j =
      hw cpu (energyMsrs j) := by
  unfold energyLoop
  rw [range4]
  interval_cases j
  · exact energyLoop_list_seed topo hw cpu [] [1, 2, 3] 0 (by decide) (by decide)
      c hflag hb
  · exact energyLoop_list_seed topo hw cpu [0] [2, 3] 1 (by decide) (by decide)
      c hflag hb
  · exact energyLoop_list_seed topo hw cpu [0, 1] [3] 2 (by decide) (by decide)
      c hflag hb
  · exact energyLoop_list_seed topo hw cpu [0, 1, 2] [] 3 (by decide) (by decide)
      c hflag hb

theorem updateCounters_primary (cpu : Nat) (c : Counters)
    (hcpu : cpu < MaxCpus)
    (hlog : topo.numberToLogical cpu = 0)
    (hphys : 0 < topo.physicalCount (topo.numberToPackage cpu)) :
    updateCounters topo hw cpu c =
      packageWork topo hw cpu (coreTempStep topo hw cpu c) := by
  have hlt : topo.numberToLogical cpu <
      topo.physicalCount (topo.numberToPackage cpu) := by
    rw [hlog]; exact hphys
  unfold updateCounters
  rw [if_pos hcpu, if_pos hlt]
  show (if topo.numberToLogical cpu = 0 then
      packageWork topo hw cpu (coreTempStep topo hw cpu c)
    else coreTempStep topo hw cpu c) = _
  rw [if_pos hlog]

theorem updateCounters_packageView_frame (cpu : Nat) (c : Counters)
    (h : reachesPackageWork topo cpu = false) :
    packageView (updateCounters topo hw cpu c) = packageView c := by
  unfold updateCounters
  by_cases h1 : cpu < MaxCpus
  · rw [if_pos h1]
    by_cases h2 : topo.numberToLogical cpu <
        topo.physicalCount (topo.numberToPackage cpu)
    · rw [if_pos h2]
      by_cases h3 : topo.numberToLogical cpu = 0
      · have htrue : reachesPackageWork topo cpu = true := by
          unfold reachesPackageWork
          rw [decide_eq_true h1, decide_eq_true h2, decide_eq_true h3]
          rfl
        rw [h] at htrue
        exact Bool.noConfusion htrue
      · show packageView (if topo.numberToLogical cpu = 0 then
            packageWork topo hw cpu (coreTempStep topo hw cpu c)
          else coreTempStep topo hw cpu c) = packageView c
        rw [if_neg h3]
        exact coreTempStep_packageView topo hw cpu c
    · rw [if_neg h2]
  · rw [if_neg h1]

end CallbackLemmas

/-! ### The claims -/

/-- C1 (counterexample): at the example input of the spec
(`energyBefore = UINT64_MAX - 10`, `energyAfter = 5`, one elapsed second,
`energyUnits = 1`) the wraparound-corrected delta of the code and the power it
stores are NOT 16: the correction `UINT64_MAX - before + after` misses
the `+ 1` of exact mod-2^64 arithmetic. -/
theorem claim_C1_counterexample :
    rawDelta (UINT64MAX - 10) 5 ≠ 16 ∧
    powerValue (UINT64MAX - 10) 5 1000000000 1 ≠ 16 ∧
    (recomputePower 1 1000000000 c1Counters).power 0 3 ≠ 16 := by
  refine ⟨by decide, ?_, ?_⟩
  · norm_num [powerValue, rawDelta, UINT64MAX]
  · norm_num [recomputePower, List.range_succ, List.range_zero, domainLoop,
      range4, powerStep, powerValue, rawDelta, upd2, c1Counters, initCounters,
      totalOnlyFlags, noFlags, UINT64MAX]

/-- C1 (amended): at the example input the wraparound-corrected delta of
the code is `UINT64_MAX - before + after = 10 + 5 = 15` (one less than
the exact mod-2^64 delta 16), and the computed power is 15. -/
theorem claim_C1_amended :
    rawDelta (UINT64MAX - 10) 5 = 15 ∧
    powerValue (UINT64MAX - 10) 5 1000000000 1 = 15 ∧
    (recomputePower 1 1000000000 c1Counters).power 0 3 = 15 := by
  refine ⟨by decide, ?_, ?_⟩
  · norm_num [powerValue, rawDelta, UINT64MAX]
  · norm_num [recomputePower, List.range_succ, List.range_zero, domainLoop,
      range4, powerStep, powerValue, rawDelta, upd2, c1Counters, initCounters,
      totalOnlyFlags, noFlags, UINT64MAX]

/-- C2: on a drift firing (gap above the maximum-allowed threshold, with
at least one energy domain enabled and a monotonic clock), the callback
runs the recomputation over the full gap `time - timerEnergyLastTime`
(so the stored power is the gap-normalized average, not a spike), leaves
`energyBefore = energyAfter` in every package and domain (the baselines
are freshly seeded, so the next delta is computed against them), and
re-arms the timer at the baseline interval. -/
theorem claim_C2_drift_reseed (topo : CpuTopology) (hw : Nat → Nat → Nat)
    (cpus : List Nat) (minD maxD tms time : Nat) (armOk : Bool)
    (s : SchedState)
    (hpow : powerAny s.counters.eventFlags = true)
    (hdrift : maxD < time - s.timerEventLastTime)
    (hminmax : minD ≤ maxD)
    (horder : s.timerEnergyLastTime ≤ s.timerEventLastTime) :
    (timerCallback topo hw cpus minD maxD tms time armOk s).1.counters =
      recomputePower topo.packageCount (time - s.timerEnergyLastTime)
        (rendezvousRound topo hw cpus s.counters) ∧
    (∀ i, i < topo.packageCount → ∀ j, j < 4 →
      (timerCallback topo hw cpus minD maxD tms time armOk s).1.counters.energyBefore i j =
        (timerCallback topo hw cpus minD maxD tms time armOk s).1.counters.energyAfter i j) ∧
    (timerCallback topo hw cpus minD maxD tms time armOk s).2.2 = some tms := by
  have hflags := powerAny_flagsNonzero _ hpow
  have hmin : minD ≤ time - s.timerEnergyLastTime := by
    have h1 : time - s.timerEventLastTime ≤ time - s.timerEnergyLastTime :=
      Nat.sub_le_sub_left horder time
    omega
  have hrecb : (decide (minD ≤ time - s.timerEnergyLastTime) &&
      powerAny (rendezvousRound topo hw cpus s.counters).eventFlags) = true := by
    rw [rendezvousRound_flags, hpow, decide_eq_true hmin]
    rfl
  have hpair :
      (timerCallback topo hw cpus minD maxD tms time armOk s).1.counters =
        recomputePower topo.packageCount (time - s.timerEnergyLastTime)
          (rendezvousRound topo hw cpus s.counters) ∧
      (timerCallback topo hw cpus minD maxD tms time armOk s).2.2 = some tms := by
    rw [timerCallback_pos topo hw cpus minD maxD tms time armOk s hflags]
    simp [hrecb, hdrift]
  refine ⟨hpair.1, ?_, hpair.2⟩
  intro i hi j hj
  rw [hpair.1]
  rw [recompute_before_at _ _ _ i j hi hj]
  rw [congrFun (congrFun (recompute_frame _ _ _).1 i) j]

/-- C2 witness: a concrete drift firing seeds `energyBefore` to
`energyAfter` for the total domain of package 0. -/
theorem claim_C2_witness :
    (timerCallback trivTopo hw0 [0] 0 0 1000 100 true s0).1.counters.energyBefore 0 3 =
      (timerCallback trivTopo hw0 [0] 0 0 1000 100 true s0).1.counters.energyAfter 0 3 :=
  (claim_C2_drift_reseed trivTopo hw0 [0] 0 0 1000 100 true s0 (by decide)
    (by decide) (by decide) (by decide)).2.1 0 (by decide) 3 (by decide)

/-- C3: if the capability flag of an energy domain is cleared and its
counters and power are at their zero startup state, then across
arbitrarily many timer rounds the power (and counters) of the domain stay at
that previous/zero state in every package. -/
theorem claim_C3_disabled_domain (topo : CpuTopology) (hw : Nat → Nat → Nat)
    (cpus : List Nat) (minD maxD tms : Nat) (j : Nat)
    (evs : List (Nat × Bool)) (s : SchedState)
    (hflag : energyFlagSet s.counters.eventFlags j = false)
    (hzero : ∀ i, s.counters.energyBefore i j = 0 ∧
      s.counters.energyAfter i j = 0 ∧ s.counters.power i j = 0) :
    ∀ i, (runRounds topo hw cpus minD maxD tms evs s).counters.power i j = 0 ∧
      (runRounds topo hw cpus minD maxD tms evs s).counters.energyBefore i j = 0 ∧
      (runRounds topo hw cpus minD maxD tms evs s).counters.energyAfter i j = 0 := by
  have h := runRounds_clear topo hw cpus minD maxD tms evs s j ⟨hflag, hzero⟩
  intro i
  exact ⟨(h.2 i).2.2, (h.2 i).1, (h.2 i).2.1⟩

/-- C3 witness: with only the total domain enabled, the cores domain
(index 0) stays at zero power after a concrete round. -/
theorem claim_C3_witness :
    (runRounds trivTopo hw0 [0] 0 0 1000 [(100, true)] s0).counters.power 0 0 = 0 :=
  ((claim_C3_disabled_domain trivTopo hw0 [0] 0 0 1000 0 [(100, true)] s0
    (by decide) (fun _ => ⟨rfl, rfl, rfl⟩)) 0).1

/-- C4: in the example topology (2 packages × 4 physical cores × 2
hyper-threads), (a) a unit that does not pass the package-work guards
leaves the package-indexed state (package temperature, energy counters,
voltage) unchanged, (b) any unit that does pass them has
`numberToLogical = 0`, and (c) exactly one execution unit per package
passes them, so package-level fields are written exactly once per
package per round. -/
theorem claim_C4_package_once :
    (∀ (hw : Nat → Nat → Nat) (cpu : Nat) (c : Counters),
        reachesPackageWork exampleTopo cpu = false →
        packageView (updateCounters exampleTopo hw cpu c) = packageView c) ∧
    (∀ cpu : Nat, reachesPackageWork exampleTopo cpu = true →
        exampleTopo.numberToLogical cpu = 0) ∧
    (∀ p : Nat, p < 2 →
      ((List.range 16).countP (fun cpu =>
          reachesPackageWork exampleTopo cpu &&
            (exampleTopo.numberToPackage cpu == p))) = 1) := by
  refine ⟨?_, ?_, ?_⟩
  · intro hw cpu c hfalse
    exact updateCounters_packageView_frame exampleTopo hw cpu c hfalse
  · intro cpu h
    unfold reachesPackageWork at h
    exact of_decide_eq_true (Bool.and_eq_true_iff.mp h).2
  · intro p hp
    interval_cases p <;> decide

/-- C4 witness: unit 1 (a non-primary sibling) leaves package state
unchanged, and package 0 has exactly one package-level writer. -/
theorem claim_C4_witness :
    packageView (updateCounters exampleTopo hw0 1 initCounters) =
      packageView initCounters ∧
    ((List.range 16).countP (fun cpu =>
        reachesPackageWork exampleTopo cpu &&
          (exampleTopo.numberToPackage cpu == 0))) = 1 :=
  ⟨claim_C4_package_once.1 hw0 1 initCounters (by decide),
   claim_C4_package_once.2.2 0 (by decide)⟩

/-- C5: on completion of a firing (with a nonzero capability mask): if
the gap since the previous firing strictly exceeds the maximum-allowed
threshold, the callback re-arms the timer at the baseline interval and
records whether a round is scheduled as the arm result; otherwise it
does not re-arm and records that no round is scheduled. -/
theorem claim_C5_drift_rearm (topo : CpuTopology) (hw : Nat → Nat → Nat)
    (cpus : List Nat) (minD maxD tms time : Nat) (armOk : Bool)
    (s : SchedState)
    (hflags : flagsNonzero s.counters.eventFlags = true) :
    (maxD < time - s.timerEventLastTime →
      (timerCallback topo hw cpus minD maxD tms time armOk s).2.2 = some tms ∧
      (timerCallback topo hw cpus minD maxD tms time armOk s).1.timerEventScheduled = armOk) ∧
    (time - s.timerEventLastTime ≤ maxD →
      (timerCallback topo hw cpus minD maxD tms time armOk s).2.2 = none ∧
      (timerCallback topo hw cpus minD maxD tms time armOk s).1.timerEventScheduled = false) := by
  rw [timerCallback_pos topo hw cpus minD maxD tms time armOk s hflags]
  constructor
  · intro hd
    simp [hd]
  · intro hd
    have hnd : ¬ maxD < time - s.timerEventLastTime := Nat.not_lt.mpr hd
    simp [hnd]

/-- C5 witness: a concrete drift firing re-arms at the baseline interval
and records the round as scheduled. -/
theorem claim_C5_witness :
    (timerCallback trivTopo hw0 [0] 0 0 1000 100 true s0).2.2 = some 1000 ∧
    (timerCallback trivTopo hw0 [0] 0 0 1000 100 true s0).1.timerEventScheduled = true :=
  (claim_C5_drift_rearm trivTopo hw0 [0] 0 0 1000 100 true s0 (by decide)).1
    (by decide)

/-- C6: a Hurry request while no round is scheduled arms the timer at
one-tenth of the baseline interval (recording the arm result); while a
round is already scheduled it changes nothing. -/
theorem claim_C6_hurry (tms : Nat) (armOk : Bool) (s : SchedState) :
    (s.timerEventScheduled = true →
      quickReschedule tms armOk s = (s, none)) ∧
    (s.timerEventScheduled = false →
      (quickReschedule tms armOk s).2 = some (tms / 10) ∧
      (quickReschedule tms armOk s).1 = { s with timerEventScheduled := armOk }) := by
  constructor
  · intro h
    simp [quickReschedule, h]
  · intro h
    simp [quickReschedule, h]

/-- C6 witness: from an idle state a Hurry request arms at 100 ms for a
1000 ms baseline. -/
theorem claim_C6_witness :
    (quickReschedule 1000 true s0).2 = some 100 ∧
    (quickReschedule 1000 true s0).1 = { s0 with timerEventScheduled := true } :=
  (claim_C6_hurry 1000 true s0).2 rfl

/-- C7: on the primary unit of a package, for an enabled energy domain
whose `energyBefore` still holds the zero sentinel, the collection
routine sets both `energyAfter` and `energyBefore` to the freshly read
raw counter, and the power expression evaluated on the seeded pair is 0
for any elapsed time and scale factor (no first-sample spike). -/
theorem claim_C7_first_seed (topo : CpuTopology) (hw : Nat → Nat → Nat)
    (cpu : Nat) (c : Counters) (j d : Nat) (u : ℚ)
    (hcpu : cpu < MaxCpus)
    (hlog : topo.numberToLogical cpu = 0)
    (hphys : 0 < topo.physicalCount (topo.numberToPackage cpu))
    (hj : j < 4)
    (hflag : energyFlagSet c.eventFlags j = true)
    (hb : c.energyBefore (topo.numberToPackage cpu) j = 0) :
    (updateCounters topo hw cpu c).energyBefore (topo.numberToPackage cpu) j =
      hw cpu (energyMsrs j) ∧
    (updateCounters topo hw cpu c).energyAfter (topo.numberToPackage cpu) j =
      hw cpu (energyMsrs j) ∧
    powerValue
      ((updateCounters topo hw cpu c).energyBefore (topo.numberToPackage cpu) j)
      ((updateCounters topo hw cpu c).energyAfter (topo.numberToPackage cpu) j)
      d u = 0 := by
  rw [updateCounters_primary topo hw cpu c hcpu hlog hphys]
  unfold packageWork
  have hct := coreTempStep_energy topo hw cpu c
  have hth := pkgThermalStep_energy topo hw cpu (coreTempStep topo hw cpu c)
  set cb := pkgThermalStep topo hw cpu (coreTempStep topo hw cpu c) with hcb
  have hflag2 : energyFlagSet cb.eventFlags j = true := by
    rw [hcb, hth.2.2.1, hct.2.2.1]
    exact hflag
  have hb2 : cb.energyBefore (topo.numberToPackage cpu) j = 0 := by
    rw [hcb, congrFun (congrFun hth.1 _) j, congrFun (congrFun hct.1 _) j]
    exact hb
  have hseed := energyLoop_seed_lt topo hw cpu cb j hj hflag2 hb2
  have hv := voltageStep_energy topo hw cpu (energyLoop topo hw cpu cb)
  have h1 := (congrFun (congrFun hv.1 _) j).trans hseed.1
  have h2 := (congrFun (congrFun hv.2.1 _) j).trans hseed.2
  refine ⟨h1, h2, ?_⟩
  rw [h1, h2]
  exact powerValue_self _ d u

/-- C7 witness: a concrete first-round seed of the total domain on the
trivial topology. -/
theorem claim_C7_witness :
    (updateCounters trivTopo hw0 0 s0.counters).energyBefore 0 3 = 7 ∧
    (updateCounters trivTopo hw0 0 s0.counters).energyAfter 0 3 = 7 ∧
    powerValue ((updateCounters trivTopo hw0 0 s0.counters).energyBefore 0 3)
      ((updateCounters trivTopo hw0 0 s0.counters).energyAfter 0 3) 5 1 = 0 :=
  claim_C7_first_seed trivTopo hw0 0 s0.counters 3 5 1 (by decide) rfl
    (by decide) (by decide) (by decide) rfl

/-- C8: for nonnegative package scale factors, after the accumulator
recomputation every in-range package/domain power is nonnegative (also
when the raw counter wrapped), and `energyBefore` is rolled forward to
`energyAfter` in every case. -/
theorem claim_C8_power_nonneg (n d : Nat) (c : Counters)
    (hunits : ∀ i, 0 ≤ c.energyUnits i) :
    ∀ i, i < n → ∀ j, j < 4 →
      0 ≤ (recomputePower n d c).power i j ∧
      (recomputePower n d c).energyBefore i j = c.energyAfter i j := by
  intro i hi j hj
  constructor
  · rw [recompute_power_at n d c i j hi hj]
    unfold powerValue
    apply mul_nonneg
    · apply div_nonneg (Nat.cast_nonneg _)
      apply div_nonneg (Nat.cast_nonneg _)
      norm_num
    · exact hunits i
  · exact recompute_before_at n d c i j hi hj

/-- C8 witness: a concrete recomputation yields nonnegative power and
rolls the window forward. -/
theorem claim_C8_witness :
    0 ≤ (recomputePower 1 10 c8Counters).power 0 0 ∧
    (recomputePower 1 10 c8Counters).energyBefore 0 0 =
      c8Counters.energyAfter 0 0 :=
  claim_C8_power_nonneg 1 10 c8Counters (fun _ => zero_le_one) 0 (by decide)
    0 (by decide)

/-- C9: capability detection on a processor whose generation is below
the minimum supported generation leaves the four energy-domain flags and
the voltage flag cleared, whatever the cpuid and register-read oracles
return. -/
theorem claim_C9_generation_gate (gen minGen : Nat) (cpuid6eax : Option Nat)
    (topo : CpuTopology) (readMsrO : Nat → Nat → Option Nat)
    (cpus : List Nat) (bootCpu : Nat) (c : Counters)
    (hgen : gen < minGen)
    (h : c.eventFlags.powerCores = false ∧ c.eventFlags.powerUncore = false ∧
      c.eventFlags.powerDram = false ∧ c.eventFlags.powerTotal = false ∧
      c.eventFlags.voltage = false) :
    (setupKeysFlags gen minGen cpuid6eax topo readMsrO cpus bootCpu c).eventFlags.powerCores = false ∧
    (setupKeysFlags gen minGen cpuid6eax topo readMsrO cpus bootCpu c).eventFlags.powerUncore = false ∧
    (setupKeysFlags gen minGen cpuid6eax topo readMsrO cpus bootCpu c).eventFlags.powerDram = false ∧
    (setupKeysFlags gen minGen cpuid6eax topo readMsrO cpus bootCpu c).eventFlags.powerTotal = false ∧
    (setupKeysFlags gen minGen cpuid6eax topo readMsrO cpus bootCpu c).eventFlags.voltage = false := by
  have hnot : ¬ minGen ≤ gen := Nat.not_le.mpr hgen
  simp only [setupKeysFlags, hnot, if_false]
  split_ifs <;> simp_all

/-- C9 witness: a below-minimum generation with arbitrary failing reads
leaves energy and voltage flags cleared. -/
theorem claim_C9_witness :
    (setupKeysFlags 1 2 none trivTopo (fun _ _ => none) [0] 0 initCounters).eventFlags.powerTotal = false ∧
    (setupKeysFlags 1 2 none trivTopo (fun _ _ => none) [0] 0 initCounters).eventFlags.voltage = false :=
  ⟨(claim_C9_generation_gate 1 2 none trivTopo (fun _ _ => none) [0] 0
      initCounters (by decide) ⟨rfl, rfl, rfl, rfl, rfl⟩).2.2.2.1,
   (claim_C9_generation_gate 1 2 none trivTopo (fun _ _ => none) [0] 0
      initCounters (by decide) ⟨rfl, rfl, rfl, rfl, rfl⟩).2.2.2.2⟩

/-- C10: when the capability mask is entirely zero, a timer firing
leaves the whole scheduler state (Sample State and timestamps)
unchanged, runs no rendezvous and does not re-arm; a Hurry request from
the idle state still arms the timer at one-tenth the baseline. -/
theorem claim_C10_zero_mask (topo : CpuTopology) (hw : Nat → Nat → Nat)
    (cpus : List Nat) (minD maxD tms time : Nat) (armOk : Bool)
    (s : SchedState)
    (hflags : flagsNonzero s.counters.eventFlags = false) :
    timerCallback topo hw cpus minD maxD tms time armOk s = (s, false, none) ∧
    (s.timerEventScheduled = false →
      (quickReschedule tms armOk s).2 = some (tms / 10) ∧
      (quickReschedule tms armOk s).1.timerEventScheduled = armOk) := by
  constructor
  · unfold timerCallback
    rw [if_neg (by rw [hflags]; exact Bool.false_ne_true)]
  · intro h
    simp [quickReschedule, h]

/-- C10 witness: a concrete firing with an all-clear mask is a no-op and
a Hurry request re-arms. -/
theorem claim_C10_witness :
    timerCallback trivTopo hw0 [0] 0 0 1000 100 true sNone = (sNone, false, none) ∧
    (quickReschedule 1000 true sNone).2 = some 100 :=
  ⟨(claim_C10_zero_mask trivTopo hw0 [0] 0 0 1000 100 true sNone rfl).1,
   ((claim_C10_zero_mask trivTopo hw0 [0] 0 0 1000 100 true sNone rfl).2 rfl).1⟩

end SMCProc
